import Mathlib

/-!
Verification of flux-ssl-mgr core behaviour: a shallow embedding of the
certificate-issuance code (src/crypto/csr.rs, src/crypto/key.rs,
src/crypto/cert.rs, src/ca/intermediate.rs, src/batch.rs, src/config.rs)
together with theorems settling the specified properties.
-/

namespace FluxSSL

/-- Error type mirroring the FluxError enum of src/error.rs (the variants the
verified code paths can produce; payloads of path type are carried as strings). -/
inductive FluxError where
  | CaKeyUnlockFailed
  | OpenSslError (msg : String)
  | FileReadFailed (path : String) (msg : String)
  | FileWriteFailed (path : String) (msg : String)
  | IoError (msg : String)
  | InvalidSanFormat (msg : String)
  | KeyGenerationFailed (msg : String)
  | CsrGenerationFailed (msg : String)
  | CertSigningFailed (msg : String)
  | CertParseError (msg : String)
  | CsrReadFailed (path : String)
  | InteractiveError (msg : String)
deriving DecidableEq, Repr

/-- Subject Alternative Name entry, from the SanEntry enum of src/crypto/csr.rs. -/
inductive SanEntry where
  | Dns (value : String)
  | Ip (value : String)
  | Email (value : String)
deriving DecidableEq, Repr

/-- The value component of a SanEntry. -/
def sanValue : SanEntry → String
  | SanEntry.Dns v => v
  | SanEntry.Ip v => v
  | SanEntry.Email v => v

/-- Split at the first colon, as s.splitn(2, ':') does in SanEntry::parse:
none when the separator is absent (the Rust side then sees a one-element
vector and rejects), otherwise the part before the first colon and
everything after it. -/
def splitn2Colon : List Char → Option (List Char × List Char)
  | [] => none
  | c :: cs =>
    if c = ':' then some ([], cs)
    else
      match splitn2Colon cs with
      | none => none
      | some (k, v) => some (c :: k, v)

/-- Character-wise uppercasing, modelling str::to_uppercase on the kind
token of SanEntry::parse (ASCII model of the Unicode mapping). -/
def toUpperChars (l : List Char) : List Char := l.map Char.toUpper

/-- SanEntry::parse from src/crypto/csr.rs lines 23 to 38: split on the first
colon, uppercase the kind, match it against DNS, IP and EMAIL, keep the value
part exactly as written, and report an InvalidSanFormat error for a missing
separator or an unknown kind. -/
def sanParse (s : String) : Except FluxError SanEntry :=
  match splitn2Colon s.data with
  | none => Except.error (FluxError.InvalidSanFormat s)
  | some (k, v) =>
    let ku := toUpperChars k
    if ku = "DNS".data then Except.ok (SanEntry.Dns (String.mk v))
    else if ku = "IP".data then Except.ok (SanEntry.Ip (String.mk v))
    else if ku = "EMAIL".data then Except.ok (SanEntry.Email (String.mk v))
    else Except.error (FluxError.InvalidSanFormat ("Unknown SAN type: " ++ String.mk ku))

/-- Split on every comma, as str::split(',') does: the empty input gives one
empty token, and consecutive commas give empty tokens. -/
def splitComma : List Char → List (List Char)
  | [] => [[]]
  | c :: cs =>
    if c = ',' then [] :: splitComma cs
    else
      match splitComma cs with
      | [] => [[c]]
      | t :: ts => (c :: t) :: ts

/-- Whitespace trimming applied to each token, modelling str::trim. -/
def trimChars (l : List Char) : List Char :=
  ((l.dropWhile Char.isWhitespace).reverse.dropWhile Char.isWhitespace).reverse

/-- SanEntry::parse_multiple from src/crypto/csr.rs lines 41 to 45: split the
input on commas, trim each token, parse each token, and propagate the first
error (collect over Result). -/
def sanParseMultiple (s : String) : Except FluxError (List SanEntry) :=
  (splitComma s.data).mapM (fun tok => sanParse (String.mk (trimChars tok)))

/-- Modelled from the spec: the textual form of a SanEntry is KIND:value
(section 3 of the spec and the examples in src/crypto/csr.rs line 23); the
repository defines no Display or to_string for SanEntry, so the printer the
round-trip property quantifies over is taken from the spec wording. -/
def sanToString : SanEntry → String
  | SanEntry.Dns v => String.mk ("DNS".data ++ ':' :: v.data)
  | SanEntry.Ip v => String.mk ("IP".data ++ ':' :: v.data)
  | SanEntry.Email v => String.mk ("EMAIL".data ++ ':' :: v.data)

theorem splitn2Colon_append (k v : List Char) (h : (':' : Char) ∉ k) :
    splitn2Colon (k ++ ':' :: v) = some (k, v) := by
  induction k with
  | nil => simp [splitn2Colon]
  | cons c cs ih =>
    have hc : c ≠ ':' := fun hc => h (hc ▸ List.mem_cons_self c cs)
    have hcs : (':' : Char) ∉ cs := fun hm => h (List.mem_cons_of_mem c hm)
    simp [splitn2Colon, hc, ih hcs]

theorem splitn2Colon_none (l : List Char) (h : (':' : Char) ∉ l) :
    splitn2Colon l = none := by
  induction l with
  | nil => rfl
  | cons c cs ih =>
    have hc : c ≠ ':' := fun hc => h (hc ▸ List.mem_cons_self c cs)
    have hcs : (':' : Char) ∉ cs := fun hm => h (List.mem_cons_of_mem c hm)
    simp [splitn2Colon, hc, ih hcs]

/-- C8: SanEntry parsing satisfies the stated grammar: the example string
parses to exactly [Dns example.com, Ip 10.0.0.1] in order; the kind token is
matched case-insensitively while the value is preserved exactly; a missing
separator or an unknown kind yields an explicit InvalidSanFormat error; and
parse after print is the identity on all constructible entries. -/
theorem sanEntry_grammar :
    (sanParseMultiple ("DNS:example.com,IP:10.0.0.1") =
      Except.ok [SanEntry.Dns ("example.com"), SanEntry.Ip ("10.0.0.1")])
    ∧ (∀ k₁ k₂ v, (':' : Char) ∉ k₁ → (':' : Char) ∉ k₂ →
        toUpperChars k₁ = toUpperChars k₂ →
        sanParse (String.mk (k₁ ++ ':' :: v)) = sanParse (String.mk (k₂ ++ ':' :: v)))
    ∧ (∀ k v e, (':' : Char) ∉ k →
        sanParse (String.mk (k ++ ':' :: v)) = Except.ok e → sanValue e = String.mk v)
    ∧ (∀ k v, (':' : Char) ∉ k →
        toUpperChars k ≠ "DNS".data → toUpperChars k ≠ "IP".data →
        toUpperChars k ≠ "EMAIL".data →
        sanParse (String.mk (k ++ ':' :: v)) =
          Except.error (FluxError.InvalidSanFormat
            ("Unknown SAN type: " ++ String.mk (toUpperChars k))))
    ∧ (∀ s, (':' : Char) ∉ s.data →
        sanParse s = Except.error (FluxError.InvalidSanFormat s))
    ∧ (∀ e, sanParse (sanToString e) = Except.ok e) := by
  refine ⟨?_, ?_, ?_, ?_, ?_, ?_⟩
  · rfl
  · intro k₁ k₂ v h₁ h₂ hu
    simp only [sanParse, splitn2Colon_append _ _ h₁, splitn2Colon_append _ _ h₂, hu]
  · intro k v e h hp
    revert hp
    simp only [sanParse, splitn2Colon_append _ _ h]
    split
    · intro hp
      cases hp
      rfl
    · split
      · intro hp
        cases hp
        rfl
      · split
        · intro hp
          cases hp
          rfl
        · intro hp
          cases hp
  · intro k v h h1 h2 h3
    simp only [sanParse, splitn2Colon_append _ _ h, if_neg h1, if_neg h2, if_neg h3]
  · intro s h
    simp only [sanParse, splitn2Colon_none s.data h]
  · intro e
    cases e with
    | Dns v =>
      simp only [sanToString, sanParse,
        splitn2Colon_append ("DNS".data) v.data (by decide)]
      rfl
    | Ip v =>
      simp only [sanToString, sanParse,
        splitn2Colon_append ("IP".data) v.data (by decide)]
      rfl
    | Email v =>
      simp only [sanToString, sanParse,
        splitn2Colon_append ("EMAIL".data) v.data (by decide)]
      rfl

/-- Concrete instantiation of sanEntry_grammar on explicit inputs. -/
theorem sanEntry_grammar_witness :
    (sanParse (String.mk ("dns".data ++ ':' :: "ExAmple.com".data)) =
      sanParse (String.mk ("DNS".data ++ ':' :: "ExAmple.com".data)))
    ∧ sanValue (SanEntry.Dns ("ExAmple.com")) = String.mk ("ExAmple.com".data)
    ∧ sanParse (String.mk ("URI".data ++ ':' :: "x".data)) =
        Except.error (FluxError.InvalidSanFormat
          ("Unknown SAN type: " ++ String.mk (toUpperChars ("URI".data))))
    ∧ sanParse ("nocolon") = Except.error (FluxError.InvalidSanFormat ("nocolon"))
    ∧ sanParse (sanToString (SanEntry.Email ("a@b.c"))) =
        Except.ok (SanEntry.Email ("a@b.c")) := by
  have h := sanEntry_grammar
  exact ⟨h.2.1 ("dns".data) ("DNS".data) ("ExAmple.com".data)
           (by decide) (by decide) (by decide),
         h.2.2.1 ("DNS".data) ("ExAmple.com".data) (SanEntry.Dns ("ExAmple.com"))
           (by decide) (by rfl),
         h.2.2.2.1 ("URI".data) ("x".data) (by decide) (by decide) (by decide) (by decide),
         h.2.2.2.2.1 ("nocolon") (by decide),
         h.2.2.2.2.2 (SanEntry.Email ("a@b.c"))⟩

/-- Abstract content of a private-key file: a valid unencrypted PKCS8 PEM
container, a valid passphrase-encrypted PKCS8 PEM container, or bytes that are
not a valid key container at all (carried verbatim). Keys are identified by a
natural number standing for the key pair. -/
inductive KeyFileContent where
  | plain (keyId : Nat)
  | encrypted (keyId : Nat) (passphrase : String)
  | invalid (raw : String)
deriving DecidableEq, Repr

/-- Collaborator semantics of openssl PKey::private_key_from_pem: succeeds
exactly on a valid unencrypted container; an encrypted container or garbage
yields an error stack. -/
def privateKeyFromPem : KeyFileContent → Except String Nat
  | KeyFileContent.plain k => Except.ok k
  | KeyFileContent.encrypted _ _ => Except.error ("encrypted PEM, passphrase required")
  | KeyFileContent.invalid _ => Except.error ("no start line")

/-- Collaborator semantics of openssl PKey::private_key_from_pem_passphrase:
succeeds on an unencrypted container, or on an encrypted container whose
passphrase matches; a wrong passphrase or garbage yields an error stack. -/
def privateKeyFromPemPassphrase (c : KeyFileContent) (pwd : String) : Except String Nat :=
  match c with
  | KeyFileContent.plain k => Except.ok k
  | KeyFileContent.encrypted k p => if pwd = p then Except.ok k else Except.error ("bad decrypt")
  | KeyFileContent.invalid _ => Except.error ("no start line")

/-- The load_private_key function of src/crypto/key.rs lines 60 to 84, with
the file read abstracted to the content value it produces. With a password,
the question-mark operator converts an openssl error stack into
FluxError::OpenSslError via the From impl of src/error.rs; with no password,
any parse failure is mapped to FluxError::CaKeyUnlockFailed. -/
def load_private_key (content : KeyFileContent) (password : Option String) :
    Except FluxError Nat :=
  match password with
  | some pwd =>
    match privateKeyFromPemPassphrase content pwd with
    | Except.ok k => Except.ok k
    | Except.error e => Except.error (FluxError.OpenSslError e)
  | none =>
    match privateKeyFromPem content with
    | Except.ok k => Except.ok k
    | Except.error _ => Except.error FluxError.CaKeyUnlockFailed

/-- Classification of FluxError variants as the DecryptionFailed kind of the
error taxonomy (section 7 of the spec): wrong or missing passphrase on an
encrypted key. In src/error.rs this is CaKeyUnlockFailed, with
PasswordVerificationFailed as the interactive analogue. -/
def isDecryptionFailedKind : FluxError → Bool
  | FluxError.CaKeyUnlockFailed => true
  | _ => false

/-- Classification of FluxError variants as the ParseError kind of the error
taxonomy (section 7 of the spec): malformed PEM, CSR or certificate. -/
def isParseErrorKind : FluxError → Bool
  | FluxError.CertParseError _ => true
  | FluxError.CsrReadFailed _ => true
  | FluxError.InvalidSanFormat _ => true
  | _ => false

/-- C6 counterexample: bytes that are not a valid key
container fail with CaKeyUnlockFailed (no password) or OpenSslError (with a
password), neither of which is the ParseError kind the claim requires; and a
wrong password on an encrypted container fails with OpenSslError, which is
not the DecryptionFailed kind. -/
theorem load_private_key_kinds_counterexample :
    load_private_key (KeyFileContent.invalid ("junk")) none =
      Except.error FluxError.CaKeyUnlockFailed
    ∧ isParseErrorKind FluxError.CaKeyUnlockFailed = false
    ∧ load_private_key (KeyFileContent.encrypted 7 ("right")) (some ("wrong")) =
        Except.error (FluxError.OpenSslError ("bad decrypt"))
    ∧ isDecryptionFailedKind (FluxError.OpenSslError ("bad decrypt")) = false := by
  exact ⟨rfl, rfl, rfl, rfl⟩

/-- C6 as amended: an encrypted container with no password fails with
CaKeyUnlockFailed, the DecryptionFailed kind; an encrypted container with a
wrong password fails with the generic OpenSslError wrapper, not a
DecryptionFailed kind; bytes that are not a key container fail with
CaKeyUnlockFailed when no password is given and with OpenSslError when one
is, not a ParseError kind. -/
theorem load_private_key_error_kinds :
    (∀ k p, load_private_key (KeyFileContent.encrypted k p) none =
        Except.error FluxError.CaKeyUnlockFailed
      ∧ isDecryptionFailedKind FluxError.CaKeyUnlockFailed = true)
    ∧ (∀ k p w, w ≠ p →
        load_private_key (KeyFileContent.encrypted k p) (some w) =
          Except.error (FluxError.OpenSslError ("bad decrypt"))
        ∧ isDecryptionFailedKind (FluxError.OpenSslError ("bad decrypt")) = false)
    ∧ (∀ r, load_private_key (KeyFileContent.invalid r) none =
          Except.error FluxError.CaKeyUnlockFailed
        ∧ isParseErrorKind FluxError.CaKeyUnlockFailed = false)
    ∧ (∀ r w, load_private_key (KeyFileContent.invalid r) (some w) =
          Except.error (FluxError.OpenSslError ("no start line"))
        ∧ isParseErrorKind (FluxError.OpenSslError ("no start line")) = false) := by
  refine ⟨fun k p => ⟨rfl, rfl⟩, ?_, fun r => ⟨rfl, rfl⟩, fun r w => ⟨rfl, rfl⟩⟩
  intro k p w hw
  refine ⟨?_, rfl⟩
  simp only [load_private_key, privateKeyFromPemPassphrase, if_neg hw]

/-- Concrete instantiation of load_private_key_error_kinds. -/
theorem load_private_key_error_kinds_witness :
    load_private_key (KeyFileContent.encrypted 3 ("secret")) (some ("typo")) =
      Except.error (FluxError.OpenSslError ("bad decrypt")) := by
  exact (load_private_key_error_kinds.2.1 3 ("secret") ("typo") (by decide)).1

/-- A certificate signing request as sign_csr consumes it: the subject common
name, the embedded public key, the extension list (the SAN extension that
create_csr attaches), and the key that produced the self-signature of the
request. Keys are natural-number identifiers. -/
structure X509Req where
  subjectCN : String
  pubkey : Nat
  extensions : List SanEntry
  sigKey : Nat
deriving DecidableEq, Repr

/-- Collaborator semantics of openssl X509Req::verify against the embedded
public key: the self-signature verifies exactly when the request was signed
by the holder of that key. sign_csr in src/crypto/cert.rs never calls this. -/
def csrVerify (csr : X509Req) : Bool := csr.sigKey == csr.pubkey

/-- An issued X.509 certificate with the fields sign_csr sets. Times are in
seconds; Asn1Time::days_from_now(n) is the call instant plus n days. -/
structure X509Cert where
  version : Nat
  serial : Nat
  subjectCN : String
  issuerCN : String
  pubkey : Nat
  notBefore : Nat
  notAfter : Nat
  extensions : List SanEntry
  sigKey : Nat
  digest : String
deriving DecidableEq, Repr

/-- The bit count passed to BigNum::rand in src/crypto/cert.rs line 28:
serial.rand(159, MsbOption::MAYBE_ZERO, false). -/
def serialRandBits : Nat := 159

/-- The sign_csr function of src/crypto/cert.rs lines 12 to 73. The openssl
builder calls fail only on allocation or encoding faults independent of the
input and are modelled as succeeding; none of them reads the self-signature
of the CSR, and the function contains no call to X509Req::verify. The
instant of issuance is the parameter now; serialRand is the 159-bit random
value drawn by BigNum::rand(159, MAYBE_ZERO, false); the extension loop
copies every CSR extension onto the certificate verbatim. -/
def sign_csr (csr : X509Req) (caCert : X509Cert) (caKey : Nat) (days : Nat)
    (now : Nat) (serialRand : Fin (2 ^ serialRandBits)) : Except FluxError X509Cert :=
  Except.ok
    { version := 2
      serial := serialRand.val
      subjectCN := csr.subjectCN
      issuerCN := caCert.subjectCN
      pubkey := csr.pubkey
      notBefore := now
      notAfter := now + days * 86400
      extensions := csr.extensions
      sigKey := caKey
      digest := "sha256" }

/-- A concrete CSR whose self-signature is invalid: the embedded public key
is key 1 but the request was signed by key 2. -/
def badCsr : X509Req :=
  { subjectCN := "attacker.example", pubkey := 1, extensions := [], sigKey := 2 }

/-- A concrete CSR with a valid self-signature. -/
def okCsr : X509Req :=
  { subjectCN := "host1.example", pubkey := 1, extensions := [], sigKey := 1 }

/-- A concrete CA certificate for instantiations. -/
def exCaCert : X509Cert :=
  { version := 2, serial := 11, subjectCN := "Flux Intermediate CA",
    issuerCN := "Flux Root CA", pubkey := 5, notBefore := 0,
    notAfter := 31536000, extensions := [], sigKey := 9, digest := "sha256" }

/-- A concrete value of the serial randomness domain. -/
def serialZero : Fin (2 ^ serialRandBits) :=
  ⟨0, Nat.pos_pow_of_pos serialRandBits (by decide)⟩

/-- C2 counterexample: sign_csr returns a certificate for a CSR whose
self-signature does not verify, instead of failing; no validation of the
self-signature occurs. -/
theorem sign_csr_accepts_invalid_self_signature :
    csrVerify badCsr = false
    ∧ sign_csr badCsr exCaCert 5 365 1000 serialZero =
        Except.ok
          { version := 2, serial := 0, subjectCN := "attacker.example",
            issuerCN := "Flux Intermediate CA", pubkey := 1, notBefore := 1000,
            notAfter := 1000 + 365 * 86400, extensions := [], sigKey := 5,
            digest := "sha256" } := by
  exact ⟨rfl, rfl⟩

/-- C2 as amended: sign_csr performs no validation of the CSR self-signature;
its result is invariant under replacing the signing key of the request, and
it succeeds for every CSR, so a CSR with an invalid self-signature yields a
certificate built from the untrusted subject, public key and extensions. -/
theorem sign_csr_ignores_self_signature :
    ∀ (s : String) (pk : Nat) (exts : List SanEntry) (sig₁ sig₂ : Nat)
      (caCert : X509Cert) (caKey days now : Nat) (r : Fin (2 ^ serialRandBits)),
      sign_csr ⟨s, pk, exts, sig₁⟩ caCert caKey days now r =
        sign_csr ⟨s, pk, exts, sig₂⟩ caCert caKey days now r
      ∧ (sign_csr ⟨s, pk, exts, sig₁⟩ caCert caKey days now r).isOk = true := by
  intro s pk exts sig₁ sig₂ caCert caKey days now r
  exact ⟨rfl, rfl⟩

/-- C3 counterexample: the serial number randomness is the 159-bit draw of
BigNum::rand(159, MAYBE_ZERO, false), strictly less than the 20 bytes
(160 bits) the claim requires. -/
theorem serial_entropy_below_160_bits :
    serialRandBits = 159 ∧ ¬(160 ≤ serialRandBits) := by
  exact ⟨rfl, by decide⟩

/-- C3 as amended: every certificate produced by sign_csr carries a serial
equal to the fresh 159-bit random draw, so the serial is strictly below
2 to the 159 and every such value, including those with most significant
bit zero, is attainable. -/
theorem serial_is_159_bit_random :
    ∀ (csr : X509Req) (caCert : X509Cert) (caKey days now : Nat)
      (r : Fin (2 ^ serialRandBits)),
      ∃ c, sign_csr csr caCert caKey days now r = Except.ok c
        ∧ c.serial = r.val ∧ c.serial < 2 ^ serialRandBits := by
  intro csr caCert caKey days now r
  exact ⟨_, rfl, rfl, r.isLt⟩

/-- C7 counterexample: with validity_days = 0 the certificate built by
sign_csr has notBefore equal to notAfter, violating the strict inequality
the claim asserts for every u32 value including 0. -/
theorem zero_validity_not_strict :
    sign_csr okCsr exCaCert 5 0 1000 serialZero =
      Except.ok
        { version := 2, serial := 0, subjectCN := "host1.example",
          issuerCN := "Flux Intermediate CA", pubkey := 1, notBefore := 1000,
          notAfter := 1000, extensions := [], sigKey := 5, digest := "sha256" }
    ∧ ¬((1000 : Nat) < 1000) := by
  exact ⟨rfl, by decide⟩

/-- C7 as amended: for every validity_days of at least 1 the certificate
produced by sign_csr has notBefore equal to the issuance instant, notAfter
equal to the issuance instant plus validity_days, and notBefore strictly
earlier than notAfter; at validity_days = 0 the two instants coincide. -/
theorem validity_window_strict_when_positive :
    ∀ (csr : X509Req) (caCert : X509Cert) (caKey days now : Nat)
      (r : Fin (2 ^ serialRandBits)), 1 ≤ days →
      ∃ c, sign_csr csr caCert caKey days now r = Except.ok c
        ∧ c.notBefore = now ∧ c.notAfter = now + days * 86400
        ∧ c.notBefore < c.notAfter := by
  intro csr caCert caKey days now r hd
  refine ⟨_, rfl, rfl, rfl, ?_⟩
  show now < now + days * 86400
  have : 0 < days * 86400 := Nat.mul_pos hd (by decide)
  omega

/-- Concrete instantiation of validity_window_strict_when_positive. -/
theorem validity_window_strict_witness :
    ∃ c, sign_csr okCsr exCaCert 5 365 1000 serialZero = Except.ok c
      ∧ c.notBefore = 1000 ∧ c.notAfter = 1000 + 365 * 86400
      ∧ c.notBefore < c.notAfter := by
  exact validity_window_strict_when_positive okCsr exCaCert 5 365 1000 serialZero
    (by decide)

/-- Paths are abstract identifiers. -/
abbrev FsPath := Nat

/-- Content of a file on disk, as far as key custody is concerned: a
decrypted private-key PEM, an encrypted private-key PEM, or anything else.
The owner600 flag records owner-only read and write permission. -/
inductive FileData where
  | plainKey (keyId : Nat) (owner600 : Bool)
  | encKey (keyId : Nat) (passphrase : String)
  | emptyFile (owner600 : Bool)
  | otherData
deriving DecidableEq, Repr

/-- The filesystem as an association list from paths to file contents. -/
abbrev FS := List (FsPath × FileData)

/-- Remove a path from the filesystem. -/
def fsRemove (fs : FS) (p : FsPath) : FS :=
  fs.filter (fun pd => pd.1 != p)

/-- Create or overwrite a file. -/
def fsSet (fs : FS) (p : FsPath) (d : FileData) : FS :=
  (p, d) :: fsRemove fs p

/-- The paths present in a filesystem. -/
def fsPaths (fs : FS) : List FsPath := fs.map Prod.fst

theorem fsRemove_fsSet (fs : FS) (p : FsPath) (d : FileData) :
    fsRemove (fsSet fs p d) p = fsRemove fs p := by
  simp [fsSet, fsRemove]

theorem fsRemove_of_fresh (fs : FS) (p : FsPath) (h : p ∉ fsPaths fs) :
    fsRemove fs p = fs := by
  induction fs with
  | nil => rfl
  | cons pd rest ih =>
    have h1 : pd.1 ≠ p := by
      intro he
      exact h (by simp [fsPaths, he])
    have h2 : p ∉ fsPaths rest := by
      intro hm
      exact h (by simp [fsPaths] at hm ⊢; exact Or.inr hm)
    simp [fsRemove] at ih ⊢
    exact ⟨h1, ih h2⟩

/-- Success of the fallible collaborator steps inside unlock_ca_key:
tempfile::NamedTempFile::new, private_key_to_pem_pkcs8, std::fs::write and
the permission metadata plus set_permissions pair. -/
structure IoOracle where
  tempCreateOk : Bool
  pemEncodeOk : Bool
  writeOk : Bool
  permSetOk : Bool
deriving DecidableEq, Repr

/-- The unlock_ca_key function of src/crypto/key.rs lines 124 to 153, with
the filesystem threaded explicitly. keyContent is the content of key_path;
tempPath is the fresh path NamedTempFile::new picks, created with owner-only
mode. The delete-on-drop contract of the tempfile crate, together with the
drop of the local NamedTempFile on each early question-mark return, is
modelled by removing tempPath from the filesystem before the error is
returned; on success the NamedTempFile is returned to the caller and the
file stays. -/
def unlock_ca_key (fs : FS) (keyContent : KeyFileContent) (password : String)
    (tempPath : FsPath) (io : IoOracle) : Except FluxError (Nat × FsPath) × FS :=
  match load_private_key keyContent (some password) with
  | Except.error e => (Except.error e, fs)
  | Except.ok key =>
    if io.tempCreateOk = false then
      (Except.error (FluxError.IoError ("tempfile creation failed")), fs)
    else
      let fs1 := fsSet fs tempPath (FileData.emptyFile true)
      if io.pemEncodeOk = false then
        (Except.error (FluxError.OpenSslError ("pem encode failed")), fsRemove fs1 tempPath)
      else if io.writeOk = false then
        (Except.error (FluxError.FileWriteFailed ("temp") ("write failed")),
          fsRemove fs1 tempPath)
      else
        let fs2 := fsSet fs1 tempPath (FileData.plainKey key true)
        if io.permSetOk = false then
          (Except.error (FluxError.IoError ("set_permissions failed")),
            fsRemove fs2 tempPath)
        else
          (Except.ok (key, tempPath), fs2)

/-- Substring test over character lists, used for the ENCRYPTED marker scan. -/
def hasSub (n : List Char) : List Char → Bool
  | [] => List.isPrefixOf n []
  | c :: cs => List.isPrefixOf n (c :: cs) || hasSub n cs

/-- The is_key_encrypted function of src/crypto/key.rs lines 87 to 97: the
file content is scanned for the ENCRYPTED marker of the PEM header. A valid
unencrypted PKCS8 container has no such marker and a valid encrypted one
always does; arbitrary bytes are scanned verbatim. -/
def isKeyEncrypted : KeyFileContent → Bool
  | KeyFileContent.plain _ => false
  | KeyFileContent.encrypted _ _ => true
  | KeyFileContent.invalid raw => hasSub ("ENCRYPTED".data) raw.data

/-- Success of the steps of IntermediateCA::load that precede key unlocking:
load_cert on the CA certificate, the file read inside is_key_encrypted, and
the interactive password prompt. -/
structure LoadOracle where
  certLoadOk : Bool
  keyReadOk : Bool
  promptOk : Bool
  io : IoOracle
deriving DecidableEq, Repr

/-- The IntermediateCA value of src/ca/intermediate.rs lines 12 to 19: the
CA key, the CA certificate, and the owned temporary file when the on-disk
key was encrypted. -/
structure IntermediateCA where
  key : Nat
  cert : Nat
  tempFile : Option FsPath
deriving DecidableEq, Repr

/-- The IntermediateCA::load function of src/ca/intermediate.rs lines 23 to
52, filesystem threaded explicitly: load the CA certificate, test the key
file for the encryption marker, then either prompt and unlock through a
temporary file or load the unencrypted key directly. caCertId abstracts the
parsed certificate; enteredPassword is what the prompt returns. -/
def IntermediateCA.load (fs : FS) (caCertId : Nat) (caKeyContent : KeyFileContent)
    (enteredPassword : String) (tempPath : FsPath) (o : LoadOracle) :
    Except FluxError IntermediateCA × FS :=
  if o.certLoadOk = false then
    (Except.error (FluxError.CertParseError ("load_cert failed")), fs)
  else if o.keyReadOk = false then
    (Except.error (FluxError.FileReadFailed ("ca_key") ("read failed")), fs)
  else if isKeyEncrypted caKeyContent then
    if o.promptOk = false then
      (Except.error (FluxError.InteractiveError ("prompt failed")), fs)
    else
      match unlock_ca_key fs caKeyContent enteredPassword tempPath o.io with
      | (Except.error e, fs2) => (Except.error e, fs2)
      | (Except.ok kt, fs2) =>
        (Except.ok { key := kt.1, cert := caCertId, tempFile := some kt.2 }, fs2)
  else
    match load_private_key caKeyContent none with
    | Except.error e => (Except.error e, fs)
    | Except.ok k =>
      (Except.ok { key := k, cert := caCertId, tempFile := none }, fs)

/-- Dropping the IntermediateCA value drops the owned NamedTempFile, whose
delete-on-drop contract removes the temporary path (Drop impl of
src/ca/intermediate.rs lines 98 to 103 together with the tempfile crate). -/
def IntermediateCA.dropFs (ca : IntermediateCA) (fs : FS) : FS :=
  match ca.tempFile with
  | none => fs
  | some p => fsRemove fs p

theorem fsRemove_cons_self (fs : FS) (p : FsPath) (d : FileData) :
    fsRemove ((p, d) :: fs) p = fsRemove fs p := by
  simp [fsRemove]

theorem unlock_ca_key_fs (fs : FS) (kc : KeyFileContent) (pw : String)
    (tp : FsPath) (io : IoOracle) (h : tp ∉ fsPaths fs) :
    (∀ e fs2, unlock_ca_key fs kc pw tp io = (Except.error e, fs2) → fs2 = fs)
    ∧ (∀ kt fs2, unlock_ca_key fs kc pw tp io = (Except.ok kt, fs2) →
        kt.2 = tp ∧ fs2 = (tp, FileData.plainKey kt.1 true) :: fs
        ∧ fsRemove fs2 tp = fs) := by
  have hrm : fsRemove fs tp = fs := fsRemove_of_fresh fs tp h
  have hset : ∀ d : FileData, fsSet fs tp d = (tp, d) :: fs := by
    intro d
    simp [fsSet, hrm]
  have hset2 : ∀ d d2 : FileData, fsSet ((tp, d) :: fs) tp d2 = (tp, d2) :: fs := by
    intro d d2
    simp [fsSet, fsRemove_cons_self, hrm]
  have hrm2 : ∀ d : FileData, fsRemove ((tp, d) :: fs) tp = fs := by
    intro d
    simp [fsRemove_cons_self, hrm]
  constructor
  · intro e fs2 heq
    unfold unlock_ca_key at heq
    split at heq
    · cases heq
      rfl
    · split at heq
      · cases heq
        rfl
      · simp only [hset] at heq
        split at heq
        · cases heq
          exact hrm2 _
        · split at heq
          · cases heq
            exact hrm2 _
          · simp only [hset2] at heq
            split at heq
            · cases heq
              exact hrm2 _
            · cases heq
  · intro kt fs2 heq
    unfold unlock_ca_key at heq
    split at heq
    · cases heq
    · split at heq
      · cases heq
      · simp only [hset] at heq
        split at heq
        · cases heq
        · split at heq
          · cases heq
          · simp only [hset2] at heq
            split at heq
            · cases heq
            · cases heq
              exact ⟨rfl, rfl, hrm2 _⟩

/-- C1: loading a CertificateAuthority whose on-disk key is encrypted leaves
no decrypted key file behind on any exit path: every failing load returns
with the filesystem exactly as it was, the partial temporary plaintext file
having been removed before the error propagates, and after a successful load
the drop of the IntermediateCA value deletes the owned temporary plaintext
file, restoring the original filesystem. -/
theorem ca_load_leaves_no_plaintext :
    ∀ (fs : FS) (caCertId : Nat) (kc : KeyFileContent) (pw : String)
      (tp : FsPath) (o : LoadOracle), tp ∉ fsPaths fs →
      (∀ e fs2,
        IntermediateCA.load fs caCertId kc pw tp o = (Except.error e, fs2) → fs2 = fs)
      ∧ (∀ ca fs2,
          IntermediateCA.load fs caCertId kc pw tp o = (Except.ok ca, fs2) →
          IntermediateCA.dropFs ca fs2 = fs) := by
  intro fs caCertId kc pw tp o hfresh
  have hu := unlock_ca_key_fs fs kc pw tp o.io hfresh
  constructor
  · intro e fs2 heq
    unfold IntermediateCA.load at heq
    split at heq
    · cases heq
      rfl
    · split at heq
      · cases heq
        rfl
      · split at heq
        · split at heq
          · cases heq
            rfl
          · split at heq
            · rename_i hm
              cases heq
              exact hu.1 _ _ hm
            · rename_i hm
              cases heq
        · split at heq
          · cases heq
            rfl
          · cases heq
  · intro ca fs2 heq
    unfold IntermediateCA.load at heq
    split at heq
    · cases heq
    · split at heq
      · cases heq
      · split at heq
        · split at heq
          · cases heq
          · split at heq
            · rename_i hm
              cases heq
            · rename_i hm
              cases heq
              obtain ⟨hkt, hfs2, hrm⟩ := hu.2 _ _ hm
              simp [IntermediateCA.dropFs, hkt, hrm]
        · split at heq
          · cases heq
          · cases heq
            simp [IntermediateCA.dropFs]

/-- Concrete instantiation of ca_load_leaves_no_plaintext: an encrypted CA
key at path 0 is unlocked through temporary path 1, and dropping the loaded
IntermediateCA restores the original filesystem. -/
theorem ca_load_leaves_no_plaintext_witness :
    IntermediateCA.load ([(0, FileData.encKey 5 ("pw"))]) 3
        (KeyFileContent.encrypted 5 ("pw")) ("pw") 1
        ⟨true, true, true, ⟨true, true, true, true⟩⟩ =
      (Except.ok { key := 5, cert := 3, tempFile := some 1 },
        [(1, FileData.plainKey 5 true), (0, FileData.encKey 5 ("pw"))])
    ∧ IntermediateCA.dropFs { key := 5, cert := 3, tempFile := some 1 }
        ([(1, FileData.plainKey 5 true), (0, FileData.encKey 5 ("pw"))]) =
      ([(0, FileData.encKey 5 ("pw"))]) := by
  refine ⟨by rfl, ?_⟩
  exact (ca_load_leaves_no_plaintext ([(0, FileData.encKey 5 ("pw"))]) 3
    (KeyFileContent.encrypted 5 ("pw")) ("pw") 1
    ⟨true, true, true, ⟨true, true, true, true⟩⟩ (by decide)).2
    { key := 5, cert := 3, tempFile := some 1 }
    ([(1, FileData.plainKey 5 true), (0, FileData.encKey 5 ("pw"))]) (by rfl)

/-- The BatchResult struct of src/batch.rs lines 20 to 25. -/
structure BatchResult where
  successful : Nat
  failed : Nat
  errors : List (String × String)
deriving DecidableEq, Repr

/-- The BatchConfig struct of src/config.rs lines 108 to 121. -/
structure BatchConfig where
  parallel : Bool
  max_workers : Nat
  progress_bar : Bool
deriving DecidableEq, Repr

/-- The BatchConfig defaults of src/config.rs lines 168 to 170:
parallel true, max_workers 4, progress_bar true. -/
def defaultBatchConfig : BatchConfig :=
  { parallel := true, max_workers := 4, progress_bar := true }

/-- The sequential loop of batch_process, src/batch.rs lines 227 to 239: for
each name in input order, run process_certificate, increment the matching
counter and push (name, rendered error) on failure. The per-item result of
process_certificate for a given name is abstracted by outcome, the error
already rendered by to_string. -/
def batchSequentialGo (outcome : String → Except String Unit) :
    List String → BatchResult → BatchResult
  | [], acc => acc
  | n :: rest, acc =>
    match outcome n with
    | Except.ok _ =>
      batchSequentialGo outcome rest
        { successful := acc.successful + 1, failed := acc.failed, errors := acc.errors }
    | Except.error e =>
      batchSequentialGo outcome rest
        { successful := acc.successful, failed := acc.failed + 1,
          errors := acc.errors ++ [(n, e)] }

/-- The sequential branch of batch_process starting from zeroed counters. -/
def batchSequential (names : List String) (outcome : String → Except String Unit) :
    BatchResult :=
  batchSequentialGo outcome names { successful := 0, failed := 0, errors := [] }

/-- The fold over collected results in the parallel branch of batch_process,
src/batch.rs lines 218 to 226. -/
def collectResults : List (Sum String (String × String)) → BatchResult → BatchResult
  | [], acc => acc
  | Sum.inl _ :: rest, acc =>
    collectResults rest
      { successful := acc.successful + 1, failed := acc.failed, errors := acc.errors }
  | Sum.inr ne :: rest, acc =>
    collectResults rest
      { successful := acc.successful, failed := acc.failed + 1,
        errors := acc.errors ++ [ne] }

/-- The parallel branch of batch_process, src/batch.rs lines 207 to 226:
cert_names.par_iter().map(..).collect() produces one Ok(name) or
Err((name, rendered error)) per input name; collect on an indexed rayon
parallel iterator returns the results in input-index order, whatever the
completion order of the workers, and the subsequent sequential fold
aggregates them. -/
def batchParallel (names : List String) (outcome : String → Except String Unit) :
    BatchResult :=
  collectResults
    (names.map (fun n =>
      match outcome n with
      | Except.ok _ => Sum.inl n
      | Except.error e => Sum.inr (n, e)))
    { successful := 0, failed := 0, errors := [] }

/-- The branch selection of batch_process, src/batch.rs lines 206 and 227:
the parallel branch runs when config.batch.parallel is set and more than one
name was submitted, the sequential branch otherwise. The preceding
IntermediateCA load is fatal to the whole batch when it fails and no
BatchResult is produced then; this function is the aggregation that runs
after a successful load. -/
def batch_process (names : List String) (outcome : String → Except String Unit)
    (cfg : BatchConfig) : BatchResult :=
  if cfg.parallel ∧ names.length > 1 then batchParallel names outcome
  else batchSequential names outcome

/-- The identifiers of the failing jobs paired with their rendered errors,
in input order. -/
def failedEntries (outcome : String → Except String Unit) (names : List String) :
    List (String × String) :=
  names.filterMap (fun n =>
    match outcome n with
    | Except.ok _ => none
    | Except.error e => some (n, e))

/-- The number of successful jobs. -/
def okCount (outcome : String → Except String Unit) (names : List String) : Nat :=
  (names.filter (fun n => (outcome n).isOk)).length

theorem batchSequentialGo_spec (outcome : String → Except String Unit)
    (names : List String) (acc : BatchResult) :
    batchSequentialGo outcome names acc =
      { successful := acc.successful + okCount outcome names,
        failed := acc.failed + (failedEntries outcome names).length,
        errors := acc.errors ++ failedEntries outcome names } := by
  induction names generalizing acc with
  | nil => simp [batchSequentialGo, okCount, failedEntries]
  | cons n rest ih =>
    cases ho : outcome n with
    | ok u =>
      simp only [batchSequentialGo, ho, ih, okCount, failedEntries, List.filterMap_cons,
        List.filter_cons, Except.isOk, Except.toBool]
      simp [ho, okCount, failedEntries, Except.isOk, Except.toBool]
      omega
    | error e =>
      simp only [batchSequentialGo, ho, ih, okCount, failedEntries, List.filterMap_cons,
        List.filter_cons, Except.isOk, Except.toBool]
      simp [ho, okCount, failedEntries, Except.isOk, Except.toBool]
      omega

theorem collectResults_spec (outcome : String → Except String Unit)
    (names : List String) (acc : BatchResult) :
    collectResults
        (names.map (fun n =>
          match outcome n with
          | Except.ok _ => Sum.inl n
          | Except.error e => Sum.inr (n, e))) acc =
      { successful := acc.successful + okCount outcome names,
        failed := acc.failed + (failedEntries outcome names).length,
        errors := acc.errors ++ failedEntries outcome names } := by
  induction names generalizing acc with
  | nil => simp [collectResults, okCount, failedEntries]
  | cons n rest ih =>
    cases ho : outcome n with
    | ok u =>
      simp only [List.map_cons, ho, collectResults, ih]
      simp [okCount, failedEntries, ho, Except.isOk, Except.toBool]
      omega
    | error e =>
      simp only [List.map_cons, ho, collectResults, ih]
      simp [okCount, failedEntries, ho, Except.isOk, Except.toBool]
      omega

/-- C5: in both sequential and concurrent modes, batch_process returns a
BatchResult with successful plus failed equal to the number of submitted
identifiers, and an errors list holding exactly one (identifier, message)
entry per failed job, in input order, and none for successful jobs. -/
theorem batch_result_counts_and_errors :
    ∀ (names : List String) (outcome : String → Except String Unit)
      (cfg : BatchConfig),
      (batch_process names outcome cfg).successful +
        (batch_process names outcome cfg).failed = names.length
      ∧ (batch_process names outcome cfg).errors = failedEntries outcome names
      ∧ (batch_process names outcome cfg).successful = okCount outcome names
      ∧ (batch_process names outcome cfg).failed =
          (failedEntries outcome names).length := by
  intro names outcome cfg
  have hlen : okCount outcome names + (failedEntries outcome names).length =
      names.length := by
    induction names with
    | nil => simp [okCount, failedEntries]
    | cons n rest ih =>
      cases ho : outcome n <;>
        simp [okCount, failedEntries, ho, Except.isOk, Except.toBool, List.filter_cons,
          List.filterMap_cons] at ih ⊢ <;>
        omega
  unfold batch_process
  split
  · unfold batchParallel
    rw [collectResults_spec]
    simp [hlen]
  · unfold batchSequential
    rw [batchSequentialGo_spec]
    simp [hlen]

/-- C10: for every identifier list and fixed per-item outcomes, the parallel
branch of batch_process produces exactly the same BatchResult as the
sequential branch, with identical counters and the failed identifiers in
input order. -/
theorem parallel_equals_sequential :
    ∀ (names : List String) (outcome : String → Except String Unit)
      (w₁ w₂ : Nat) (pb₁ pb₂ : Bool),
      batchParallel names outcome = batchSequential names outcome
      ∧ batch_process names outcome ⟨true, w₁, pb₁⟩ =
        batch_process names outcome ⟨false, w₂, pb₂⟩
      ∧ (batchParallel names outcome).errors = failedEntries outcome names := by
  intro names outcome w₁ w₂ pb₁ pb₂
  have hps : batchParallel names outcome = batchSequential names outcome := by
    unfold batchParallel batchSequential
    rw [collectResults_spec, batchSequentialGo_spec]
  refine ⟨hps, ?_, ?_⟩
  · unfold batch_process
    simp [hps]
  · unfold batchParallel
    rw [collectResults_spec]
    simp

/-- Number of interactive prompts one process_certificate call performs
(src/batch.rs lines 94 to 105): after the four create_dir_all calls succeed,
and only when password_protect is true, the job itself calls
dialoguer Password::new().with_prompt(..).interact() for its certificate.
dirsOk models success of the directory-creation calls that precede the
prompt; on their failure the job returns before prompting. -/
def processCertificatePromptCount (password_protect : Bool) (dirsOk : Bool) : Nat :=
  if dirsOk && password_protect then 1 else 0

/-- Number of interactive prompts executed inside the rayon worker pool by
batch_process (src/batch.rs lines 206 to 216): when the parallel branch is
taken, the whole body of process_certificate for every name — its prompt
included — runs inside the par_iter map closure on a pool thread;
batch_process collects no passphrase before fan-out. In the sequential
branch no prompt runs on a pool thread. -/
def poolPromptCount (names : List String) (password_protect : Bool)
    (dirsOk : Bool) (cfg : BatchConfig) : Nat :=
  if cfg.parallel ∧ names.length > 1 then
    (names.map (fun _ => processCertificatePromptCount password_protect dirsOk)).sum
  else 0

/-- C4: the claim says no interactive prompt is ever invoked inside the
worker pool for any input list and any value of password_protect; evaluating
the code at the failing input shows that a parallel batch of two names with
password_protect set performs one prompt per job inside the pool, and in
general one per submitted name. -/
theorem parallel_batch_prompts_in_pool :
    poolPromptCount (["web1", "web2"]) true true defaultBatchConfig = 2
    ∧ (∀ names : List String,
        poolPromptCount names true true defaultBatchConfig =
          if names.length > 1 then names.length else 0)
    ∧ (∀ names : List String, ∀ cfg : BatchConfig,
        poolPromptCount names false true cfg = 0) := by
  refine ⟨rfl, ?_, ?_⟩
  · intro names
    unfold poolPromptCount defaultBatchConfig processCertificatePromptCount
    by_cases h : names.length > 1
    · simp [h]
    · simp [h]
  · intro names cfg
    unfold poolPromptCount processCertificatePromptCount
    split
    · simp
    · rfl

/-- Size of the rayon global thread pool: the crate never builds a custom
ThreadPool and never calls ThreadPoolBuilder, so par_iter runs on the
default global pool, whose worker count is the number of available CPUs. -/
def rayonGlobalPoolThreads (numCpus : Nat) : Nat := numCpus

/-- Upper bound on the number of IssuanceJobs executing at the same time in
the parallel branch of batch_process: cert_names.par_iter() (src/batch.rs
line 208) schedules the jobs on the rayon global pool, so the bound is the
pool width. config.batch.max_workers (src/config.rs lines 114 to 116) is
read nowhere in src/batch.rs or anywhere else in the crate, so the bound
does not depend on it. -/
def parallelWorkerBound (_cfg : BatchConfig) (numCpus : Nat) : Nat :=
  rayonGlobalPoolThreads numCpus

/-- C9: the claim says the number of concurrently executing IssuanceJobs
never exceeds config.batch.max_workers; evaluating the code at the failing
input shows that with the default max_workers of 4 on an eight-CPU machine
the actual bound is 8, and in general the bound equals the CPU count
whatever max_workers is set to. -/
theorem max_workers_not_applied :
    parallelWorkerBound defaultBatchConfig 8 = 8
    ∧ defaultBatchConfig.max_workers = 4
    ∧ ¬(parallelWorkerBound defaultBatchConfig 8 ≤ defaultBatchConfig.max_workers)
    ∧ (∀ (w : Nat) (pb : Bool) (numCpus : Nat),
        parallelWorkerBound ⟨true, w, pb⟩ numCpus = numCpus) := by
  exact ⟨rfl, rfl, by decide, fun w pb numCpus => rfl⟩

end FluxSSL
